import Mathlib

/-!
Verification of the Round_1A PDF feature-extraction tools.

This file gives a shallow embedding, in Lean 4, of the parts of the three
Python command-line tools that the specification's claims talk about:

* `extract_outline_batch.py` — outline extraction (heading heuristic
  `is_heading_nlp`, hierarchy normalisation `adjust_hierarchy`, and the
  title/heading classification loop of `extract_pdf_structure`);
* `feature-extractor.py` — the Merged-Block feature extractor
  (`normalize_value`, the empty-document guard, the CSV header, the CLI
  argument check);
* `main.py` — the Per-Block feature extractor (underline detection,
  `space_above`, the inline min-max normalisation, the CSV header, and the
  CLI argument-count validation).

Python strings are modelled as `List Char` (`PyStr`); Python floats are
modelled as rationals `ℚ`.  Each definition is translated directly from the
source file and line range named in its doc string.
-/

namespace Round1A

/-- Python strings, modelled as lists of characters. -/
abbrev PyStr := List Char

/-- Python `str.strip()`: drop whitespace from both ends. -/
def pyStrip (s : PyStr) : PyStr :=
  ((s.dropWhile Char.isWhitespace).reverse.dropWhile Char.isWhitespace).reverse

/-- Helper for `pySplit`: accumulates the current word (reversed) while
scanning the string. -/
def pySplitAux : PyStr → PyStr → List PyStr
  | [], acc => if acc.isEmpty then [] else [acc.reverse]
  | c :: cs, acc =>
    if c.isWhitespace then
      if acc.isEmpty then pySplitAux cs [] else acc.reverse :: pySplitAux cs []
    else
      pySplitAux cs (c :: acc)

/-- Python `str.split()` with no argument: split on runs of whitespace and
drop empty pieces. -/
def pySplit (s : PyStr) : List PyStr := pySplitAux s []

/-- Number of alphanumeric characters of a string
(Python `sum(1 for c in txt if c.isalnum())`). -/
def countAlnum (s : PyStr) : Nat := s.countP Char.isAlphanum

/-- Python `txt[-1] in cs` for a non-empty string `txt`; on the empty string
(unreachable in the translated code, where every scanned text is non-empty)
it returns `false` instead of raising `IndexError`. -/
def lastCharIn (s : PyStr) (cs : List Char) : Bool :=
  match s.getLast? with
  | some c => cs.contains c
  | none => false

/-- The terminal punctuation set `".?!"` used by the outline tool. -/
def titlePunct : List Char := ['.', '?', '!']

/-- Number of words whose first character is uppercase
(Python `sum(1 for w in words if w and w[0].isupper())`). -/
def capCount (words : List PyStr) : Nat :=
  words.countP (fun w => !w.isEmpty && (w.headD ' ').isUpper)

/-- Function `is_heading_nlp` from `extract_outline_batch.py` lines 7–26:
heading-shape heuristic over the trimmed text.  The final ratio test
`cap / len(words) >= 0.5` is computed in `ℚ`; `words` is never empty there
because the trimmed text is non-empty (in Lean, division by zero would yield
`0`, making the test false). -/
def is_heading_nlp (text : PyStr) : Bool :=
  let txt := pyStrip text
  if txt = [] ∨ lastCharIn txt titlePunct = true then false
  else
    let words := pySplit txt
    if 10 < words.length then false
    else if countAlnum txt < 3 then false
    else decide ((1 : ℚ) / 2 ≤ (capCount words : ℚ) / (words.length : ℚ))

/-- A heading outline node.  The Python code stores the level as the string
`"H<n>"` and re-parses it with `int(node['level'][1])`; since every level the
tool produces is a single digit, we keep the parsed numeric level directly. -/
structure OutlineNode where
  level : Nat
  text : PyStr
  page : Nat
deriving DecidableEq

/-- One step of `adjust_hierarchy` (`extract_outline_batch.py` lines 35–45):
given `last_level` and the node's parsed level `orig`, the reassigned level. -/
def adjustStep (last orig : Nat) : Nat :=
  if last = 0 ∧ 1 < orig then 1
  else if last + 1 < orig then last + 1
  else orig

/-- The walk of `adjust_hierarchy` carrying `last_level`. -/
def adjustNodes : Nat → List OutlineNode → List OutlineNode
  | _, [] => []
  | last, n :: ns =>
    let new := adjustStep last n.level
    { n with level := new } :: adjustNodes new ns

/-- Function `adjust_hierarchy` from `extract_outline_batch.py` lines 29–46:
`last_level` starts at 0. -/
def adjust_hierarchy (ns : List OutlineNode) : List OutlineNode :=
  adjustNodes 0 ns

/-- The reassignment walk exactly as the specification words it (§4.1 step 7),
written over bare level numbers, to be compared with `adjust_hierarchy`. -/
def spec_adjust_levels : Nat → List Nat → List Nat
  | _, [] => []
  | last, l :: ls =>
    let new := if last = 0 ∧ 1 < l then 1 else if last + 1 < l then last + 1 else l
    new :: spec_adjust_levels new ls

/-- A collected text block of `extract_pdf_structure`
(`extract_outline_batch.py` lines 81–87): 0-based page index, trimmed
concatenated text, maximum span font size, and the bold/italic span ratios. -/
structure RawBlock where
  page : Nat
  text : PyStr
  font_size : ℚ
  bold_ratio : ℚ
  italic_ratio : ℚ
deriving DecidableEq

/-- Threshold computation of `extract_pdf_structure`
(`extract_outline_batch.py` lines 90–91): `avg_font + 1.5` with `avg_font`
the mean of all span sizes, `0` if none were collected. -/
def heading_thresh (font_sizes : List ℚ) : ℚ :=
  (if font_sizes = [] then 0 else font_sizes.sum / (font_sizes.length : ℚ)) + 3 / 2

/-- The title condition of `extract_pdf_structure` line 105, minus the
`title is None` conjunct: a page-0 block with more than 4 words whose last
character is not one of `".?!"`. -/
def titleCond (b : RawBlock) : Bool :=
  decide (b.page = 0 ∧ 4 < (pySplit b.text).length ∧ lastCharIn b.text titlePunct = false)

/-- Predicate `is_big` of `extract_pdf_structure` line 115:
`size >= heading_thresh`. -/
def is_big (thresh : ℚ) (b : RawBlock) : Bool :=
  decide (thresh ≤ b.font_size)

/-- Predicate `is_bold` of `extract_pdf_structure` line 116:
`bold_ratio > 0.5`. -/
def is_bold_ratio (b : RawBlock) : Bool :=
  decide ((1 : ℚ) / 2 < b.bold_ratio)

/-- Predicate `is_italic` of `extract_pdf_structure` line 117:
`italic_ratio > 0.5`. -/
def is_italic_ratio (b : RawBlock) : Bool :=
  decide ((1 : ℚ) / 2 < b.italic_ratio)

/-- The heading test of `extract_pdf_structure` line 119:
`(is_big or is_bold or is_italic or is_nlp) and len(words) <= 10`. -/
def headingCond (thresh : ℚ) (b : RawBlock) : Bool :=
  (is_big thresh b || is_bold_ratio b || is_italic_ratio b || is_heading_nlp b.text)
    && decide ((pySplit b.text).length ≤ 10)

/-- The provisional level of `extract_pdf_structure` line 120: `1` (for "H1")
when `(is_big and size >= heading_thresh * 1.2) or is_bold`, else `2`
(for "H2").  The literal `1.2` is the rational `6 / 5`. -/
def provLevel (thresh : ℚ) (b : RawBlock) : Nat :=
  if (is_big thresh b && decide (thresh * (6 / 5) ≤ b.font_size)) || is_bold_ratio b
  then 1 else 2

/-- The classification loop of `extract_pdf_structure`
(`extract_outline_batch.py` lines 96–121): walks the collected blocks in
document order carrying the current `title` (`none` = Python `None`),
returning the final title and the provisional outline. -/
def classify (thresh : ℚ) : List RawBlock → Option PyStr → Option PyStr × List OutlineNode
  | [], title => (title, [])
  | b :: bs, title =>
    if b.page = 0 ∧ title = none ∧ 4 < (pySplit b.text).length
        ∧ lastCharIn b.text titlePunct = false then
      classify thresh bs (some b.text)
    else if countAlnum b.text < 3 ∨ b.text.length < 4 then
      classify thresh bs title
    else if headingCond thresh b = true then
      let r := classify thresh bs title
      (r.1, ⟨provLevel thresh b, b.text, b.page⟩ :: r.2)
    else
      classify thresh bs title

/-- The result of `extract_pdf_structure` (lines 93–125) after the blocks and
the threshold have been collected: title (`title or ""`) and the outline
normalised by `adjust_hierarchy`. -/
def extract_pdf_structure (thresh : ℚ) (blocks : List RawBlock) :
    PyStr × List OutlineNode :=
  let r := classify thresh blocks none
  (r.1.getD [], adjust_hierarchy r.2)

/-- Function `normalize_value` from `feature-extractor.py` lines 62–68. -/
def normalize_value (value min_val max_val : ℚ) : ℚ :=
  if max_val = min_val then 0 else (value - min_val) / (max_val - min_val)

/-- The inline min-max formula of `main.py` lines 207–210:
`range_val = max_val - min_val`; `0.0 if range_val == 0 else
(v - min_val) / range_val`. -/
def main_norm_val (v min_val max_val : ℚ) : ℚ :=
  if max_val - min_val = 0 then 0 else (v - min_val) / (max_val - min_val)

/-- Minimum of a list of rationals; `0` on `[]` (both tools only take minima
of non-empty lists, after their emptiness guards). -/
def listMin : List ℚ → ℚ
  | [] => 0
  | x :: xs => xs.foldl min x

/-- Maximum of a list of rationals; `0` on `[]`. -/
def listMax : List ℚ → ℚ
  | [] => 0
  | x :: xs => xs.foldl max x

/-- The five per-row raw metrics the Merged-Block extractor normalises
document-wide (`feature-extractor.py` lines 150–154): the style signature's
rounded size and the four spacing values.  The remaining per-row fields
(text, bounding box, colour, flags) do not enter the normalisation. -/
structure FERow where
  size : ℚ
  space_above : ℚ
  space_below : ℚ
  space_left : ℚ
  space_right : ℚ
deriving DecidableEq

/-- The five appended document-normalised metrics (both extractors). -/
structure NormFields where
  norm_font_size : ℚ
  norm_space_above : ℚ
  norm_space_below : ℚ
  norm_space_left : ℚ
  norm_space_right : ℚ
deriving DecidableEq

/-- Pass 2 of `extract_and_process_pdf` (`feature-extractor.py`
lines 150–188), restricted to the five normalised metrics: document-wide
min/max, then `normalize_value` per row. -/
def fe_norm_rows (rows : List FERow) : List (FERow × NormFields) :=
  let min_font := listMin (rows.map FERow.size)
  let max_font := listMax (rows.map FERow.size)
  let min_sa := listMin (rows.map FERow.space_above)
  let max_sa := listMax (rows.map FERow.space_above)
  let min_sb := listMin (rows.map FERow.space_below)
  let max_sb := listMax (rows.map FERow.space_below)
  let min_sl := listMin (rows.map FERow.space_left)
  let max_sl := listMax (rows.map FERow.space_left)
  let min_sr := listMin (rows.map FERow.space_right)
  let max_sr := listMax (rows.map FERow.space_right)
  rows.map fun r =>
    (r, ⟨normalize_value r.size min_font max_font,
         normalize_value r.space_above min_sa max_sa,
         normalize_value r.space_below min_sb max_sb,
         normalize_value r.space_left min_sl max_sl,
         normalize_value r.space_right min_sr max_sr⟩)

/-- The output decision of `extract_and_process_pdf` after pass 1
(`feature-extractor.py` lines 145–147): if no merged blocks were collected,
log a notice and return with no CSV written (`none`); otherwise run pass 2
and write the rows (`some`). -/
def extract_and_process_pdf_output (rows : List FERow) :
    Option (List (FERow × NormFields)) :=
  if rows = [] then none else some (fe_norm_rows rows)

/-- The five per-row metrics the Per-Block extractor normalises document-wide
(`main.py` line 194): the rounded dominant font size and the four spacing
values.  The remaining per-row fields do not enter the normalisation. -/
structure PBRow where
  font_size : ℚ
  space_above : ℚ
  space_below : ℚ
  space_left : ℚ
  space_right : ℚ
deriving DecidableEq

/-- The normalisation pass of `process_pdf` (`main.py` lines 193–212):
document-wide min/max of the five metrics, then the inline min-max formula
per row (the CSV additionally rounds each normalised value to 4 decimals). -/
def pb_norm_rows (rows : List PBRow) : List (PBRow × NormFields) :=
  let min_font := listMin (rows.map PBRow.font_size)
  let max_font := listMax (rows.map PBRow.font_size)
  let min_sa := listMin (rows.map PBRow.space_above)
  let max_sa := listMax (rows.map PBRow.space_above)
  let min_sb := listMin (rows.map PBRow.space_below)
  let max_sb := listMax (rows.map PBRow.space_below)
  let min_sl := listMin (rows.map PBRow.space_left)
  let max_sl := listMax (rows.map PBRow.space_left)
  let min_sr := listMin (rows.map PBRow.space_right)
  let max_sr := listMax (rows.map PBRow.space_right)
  rows.map fun r =>
    (r, ⟨main_norm_val r.font_size min_font max_font,
         main_norm_val r.space_above min_sa max_sa,
         main_norm_val r.space_below min_sb max_sb,
         main_norm_val r.space_left min_sl max_sl,
         main_norm_val r.space_right min_sr max_sr⟩)

/-- The output decision of `process_pdf` after block collection
(`main.py` lines 189–212): if no text blocks were extracted, log a warning
and return with no CSV written (`none`); otherwise normalise and write
(`some`). -/
def process_pdf_output (rows : List PBRow) : Option (List (PBRow × NormFields)) :=
  if rows = [] then none else some (pb_norm_rows rows)

/-- A bounding rectangle (block bounding box or drawing-path rectangle). -/
structure Rect where
  x0 : ℚ
  y0 : ℚ
  x1 : ℚ
  y1 : ℚ
deriving DecidableEq

/-- Height of a rectangle, as PyMuPDF's `rect.height`. -/
def Rect.height (r : Rect) : ℚ := r.y1 - r.y0

/-- Width of a rectangle, as PyMuPDF's `rect.width`. -/
def Rect.width (r : Rect) : ℚ := r.x1 - r.x0

/-- Test `is_horizontal_line` of `main.py` line 151:
`path['rect'].height < 1.0 and path['rect'].width > 0`. -/
def isHorizontalLine (r : Rect) : Bool :=
  decide (r.height < 1 ∧ 0 < r.width)

/-- One drawing path's underline test for a block (`main.py` lines 151–158):
horizontal line, `y0` strictly within `font_size * 0.2` of the block's bottom
edge `y1`, and horizontal overlap.  The literal `0.2` is the rational
`1 / 5`. -/
def underlineMatch (x0 x1 y1 font_size : ℚ) (r : Rect) : Bool :=
  isHorizontalLine r
    && decide (y1 - font_size * (1 / 5) < r.y0 ∧ r.y0 < y1 + font_size * (1 / 5))
    && decide (max x0 r.x0 < min x1 r.x1)

/-- The underline search loop of `main.py` lines 147–160: scan the page's
drawing paths in order, stopping at the first match (`break`); `false` when
no path matches. -/
def computeUnderline (x0 x1 y1 font_size : ℚ) : List Rect → Bool
  | [] => false
  | r :: rs =>
    if underlineMatch x0 x1 y1 font_size r then true
    else computeUnderline x0 x1 y1 font_size rs

/-- The all-zero rectangle, used as the (never-reached) default of list
indexing. -/
def defaultRect : Rect := ⟨0, 0, 0, 0⟩

/-- Expression `prev_block_y1` of `main.py` line 128:
`blocks[i-1]['bbox'][3] if i > 0 else 0`, over the page's y0-sorted raw
block list. -/
def prev_block_y1 (blocks : List Rect) (i : Nat) : ℚ :=
  if 0 < i then (blocks.getD (i - 1) defaultRect).y1 else 0

/-- Expression `space_above` of `main.py` line 129: `y0 - prev_block_y1` for
the block at index `i` of the page's y0-sorted raw block list. -/
def space_above_at (blocks : List Rect) (i : Nat) : ℚ :=
  (blocks.getD i defaultRect).y0 - prev_block_y1 blocks i

/-- The CSV header written by the Merged-Block extractor
(`feature-extractor.py` lines 167–175), a literal 33-entry list. -/
def mergedHeader : List String :=
  ["page_number", "is_bold", "is_italic", "is_underline", "is_all_caps",
   "is_centered", "contains_number", "contains_fullstop", "word_count",
   "norm_font_size", "norm_space_above", "norm_space_below",
   "norm_space_left", "norm_space_right", "norm_r", "norm_g", "norm_b",
   "norm_x0", "norm_y0", "norm_x1", "norm_y1",
   "font", "font_size", "color_rgb", "x0", "y0", "x1", "y1",
   "space_above", "space_below", "space_left", "space_right", "text"]

/-- The key-insertion order of the per-block feature dictionary assembled in
`main.py` lines 163–184. -/
def perBlockRowKeys : List String :=
  ["text", "font", "font_size", "is_bold", "is_italic", "is_underline",
   "is_all_caps", "is_centered", "contains_number", "contains_fullstop",
   "word_count", "x0", "y0", "x1", "y1", "space_above", "space_below",
   "space_left", "space_right", "page_number"]

/-- List `features_to_normalize` of `main.py` line 194. -/
def features_to_normalize : List String :=
  ["font_size", "space_above", "space_below", "space_left", "space_right"]

/-- The CSV header written by the Per-Block extractor: the row dictionary's
keys (`main.py` lines 219–223), i.e. the 20 assembly-order keys followed by
the five `norm_<key>` keys appended at line 212. -/
def perBlockHeader : List String :=
  perBlockRowKeys ++ features_to_normalize.map (fun k => "norm_" ++ k)

/-- The argument-count exit decision of the Merged-Block extractor CLI
(`feature-extractor.py` line 241): usage + `sys.exit(1)` iff
`len(sys.argv) < 3`. -/
def fe_cli_exits (argc : Nat) : Bool := decide (argc < 3)

/-- The argument-count exit decision of the Per-Block extractor CLI
(`main.py` line 235): usage + `sys.exit(1)` iff `len(sys.argv) != 3`. -/
def pb_cli_exits (argc : Nat) : Bool := decide (argc ≠ 3)

/-- The literal text `"Conclusion"` used by the spec's heading-shape
example. -/
def conclusionText : PyStr := "Conclusion".toList

/-- The literal text `"This is a normal sentence."` used by the spec's
heading-shape example. -/
def normalSentenceText : PyStr := "This is a normal sentence.".toList

/-- Lemma: `adjustNodes last ns` computes, level-wise, exactly the walk the
spec describes (`spec_adjust_levels`). -/
theorem map_adjustNodes (last : Nat) (ns : List OutlineNode) :
    (adjustNodes last ns).map OutlineNode.level
      = spec_adjust_levels last (ns.map OutlineNode.level) := by
  induction ns generalizing last with
  | nil => rfl
  | cons n ns ih =>
    simp only [adjustNodes, List.map, spec_adjust_levels, adjustStep]
    rw [ih]

/-- Lemma: each reassigned level is at most one above the incoming
`last_level`, so the output of `adjustNodes` is a chain from `last`. -/
theorem adjust_chain (ns : List OutlineNode) :
    ∀ last, List.Chain (fun a b => b ≤ a + 1) last
      ((adjustNodes last ns).map OutlineNode.level) := by
  induction ns with
  | nil => intro last; exact List.Chain.nil
  | cons n ns ih =>
    intro last
    simp only [adjustNodes, List.map]
    refine List.Chain.cons ?_ (ih _)
    unfold adjustStep
    split_ifs <;> omega

/-- Lemma: consecutive levels in the output of `adjustNodes` never step up by
more than one. -/
theorem adjust_chain' (ns : List OutlineNode) (last : Nat) :
    List.Chain' (fun a b => b ≤ a + 1)
      ((adjustNodes last ns).map OutlineNode.level) := by
  cases ns with
  | nil => trivial
  | cons n ns =>
    have h := adjust_chain (n :: ns) last
    simp only [adjustNodes, List.map] at h ⊢
    cases h with
    | cons _ hc => exact hc

/-- C1: for every list of heading nodes with positive parsed levels,
`adjust_hierarchy` performs exactly the `last_level` walk described by the
spec (reassign to 1 when `last_level = 0` and `L > 1`, to `last_level + 1`
when `L > last_level + 1`, else keep `L`); the level sequence
`[H3, H1, H4, H2]` maps to `[H1, H1, H2, H2]`; and in the output no level
exceeds its predecessor by more than 1. -/
theorem C1_adjust_hierarchy (ns : List OutlineNode)
    (hpos : ∀ n ∈ ns, 1 ≤ n.level) :
    (adjust_hierarchy ns).map OutlineNode.level
        = spec_adjust_levels 0 (ns.map OutlineNode.level)
    ∧ (adjust_hierarchy
        [⟨3, [], 0⟩, ⟨1, [], 0⟩, ⟨4, [], 1⟩, ⟨2, [], 1⟩]).map OutlineNode.level
        = [1, 1, 2, 2]
    ∧ List.Chain' (fun a b => b ≤ a + 1)
        ((adjust_hierarchy ns).map OutlineNode.level) :=
  ⟨map_adjustNodes 0 ns, by decide, adjust_chain' ns 0⟩

/-- Witness for C1 at the spec's concrete level sequence `[H3, H1, H4, H2]`. -/
theorem C1_adjust_hierarchy_witness :
    (adjust_hierarchy
      [⟨3, [], 0⟩, ⟨1, [], 0⟩, ⟨4, [], 1⟩, ⟨2, [], 1⟩]).map OutlineNode.level
      = [1, 1, 2, 2] :=
  (C1_adjust_hierarchy [⟨3, [], 0⟩, ⟨1, [], 0⟩, ⟨4, [], 1⟩, ⟨2, [], 1⟩]
    (by decide)).2.1

/-- C2: `normalize_value` is the guarded min-max formula; it sends the
minimum to 0 and (when the bounds differ) the maximum to 1; the four concrete
evaluations of the spec hold; and the inline formula of the Per-Block
extractor (`main_norm_val`) agrees with it everywhere. -/
theorem C2_normalize_value (v min_val max_val : ℚ) :
    normalize_value v min_val max_val
        = (if max_val = min_val then 0 else (v - min_val) / (max_val - min_val))
    ∧ normalize_value min_val min_val max_val = 0
    ∧ (min_val ≠ max_val → normalize_value max_val min_val max_val = 1)
    ∧ normalize_value 5 5 5 = 0
    ∧ normalize_value 5 0 10 = 1 / 2
    ∧ normalize_value 0 0 10 = 0
    ∧ normalize_value 10 0 10 = 1
    ∧ main_norm_val v min_val max_val = normalize_value v min_val max_val := by
  refine ⟨rfl, ?_, ?_, by norm_num [normalize_value], by norm_num [normalize_value],
    by norm_num [normalize_value], by norm_num [normalize_value], ?_⟩
  · unfold normalize_value
    split_ifs <;> simp
  · intro h
    unfold normalize_value
    rw [if_neg (fun hEq => h hEq.symm)]
    exact div_self (sub_ne_zero.mpr (fun hEq => h (by linarith)))
  · unfold main_norm_val normalize_value
    simp [sub_eq_zero]

/-- Witness for C2: at `v = 10`, `min = 0`, `max = 10` the maximum maps
to 1. -/
theorem C2_normalize_value_witness : normalize_value 10 0 10 = 1 :=
  (C2_normalize_value 10 0 10).2.2.1 (by with_unfolding_all decide)

/-- C8: `is_heading_nlp` returns `true` exactly when the trimmed text is
non-empty, does not end in `.?!`, has at most 10 words, at least 3
alphanumeric characters, and at least half of its words start uppercase;
`"Conclusion"` yields `true` and `"This is a normal sentence."` yields
`false`. -/
theorem C8_is_heading_nlp (t : PyStr) :
    (is_heading_nlp t = true ↔
      (pyStrip t ≠ [] ∧ lastCharIn (pyStrip t) titlePunct = false ∧
       (pySplit (pyStrip t)).length ≤ 10 ∧ 3 ≤ countAlnum (pyStrip t) ∧
       (1 : ℚ) / 2 ≤ (capCount (pySplit (pyStrip t)) : ℚ)
          / ((pySplit (pyStrip t)).length : ℚ)))
    ∧ is_heading_nlp conclusionText = true
    ∧ is_heading_nlp normalSentenceText = false := by
  refine ⟨?_, by with_unfolding_all decide, by with_unfolding_all decide⟩
  simp only [is_heading_nlp]
  by_cases h1 : pyStrip t = [] ∨ lastCharIn (pyStrip t) titlePunct = true
  · rw [if_pos h1]
    constructor
    · intro h
      exact absurd h (by simp)
    · rintro ⟨hne, hlast, -, -, -⟩
      rcases h1 with h | h
      · exact absurd h hne
      · rw [h] at hlast
        exact absurd hlast (by simp)
  · rw [if_neg h1]
    push_neg at h1
    obtain ⟨hne, hlast⟩ := h1
    have hlast' : lastCharIn (pyStrip t) titlePunct = false := by
      simpa using hlast
    by_cases h2 : 10 < (pySplit (pyStrip t)).length
    · rw [if_pos h2]
      constructor
      · intro h
        exact absurd h (by simp)
      · rintro ⟨-, -, hlen, -, -⟩
        omega
    · rw [if_neg h2]
      by_cases h3 : countAlnum (pyStrip t) < 3
      · rw [if_pos h3]
        constructor
        · intro h
          exact absurd h (by simp)
        · rintro ⟨-, -, -, hal, -⟩
          omega
      · rw [if_neg h3]
        rw [decide_eq_true_iff]
        constructor
        · intro h
          exact ⟨hne, hlast', by omega, by omega, h⟩
        · rintro ⟨-, -, -, -, h⟩
          exact h

/-- Lemma: the underline loop is the first-match scan of `underlineMatch`,
hence equal to `List.any`. -/
theorem computeUnderline_eq_any (x0 x1 y1 fs : ℚ) (paths : List Rect) :
    computeUnderline x0 x1 y1 fs paths
      = paths.any (underlineMatch x0 x1 y1 fs) := by
  induction paths with
  | nil => rfl
  | cons r rs ih =>
    simp only [computeUnderline, List.any_cons]
    by_cases h : underlineMatch x0 x1 y1 fs r = true
    · simp [h]
    · simp only [Bool.not_eq_true] at h
      simp [h, ih]

/-- Lemma: a path matches iff it is a horizontal line whose `y0` is strictly
within `font_size * 0.2` of the block's bottom edge and whose horizontal
extent overlaps the block's. -/
theorem underlineMatch_iff (x0 x1 y1 fs : ℚ) (r : Rect) :
    underlineMatch x0 x1 y1 fs r = true ↔
      (isHorizontalLine r = true ∧ |r.y0 - y1| < fs * (1 / 5)
        ∧ max x0 r.x0 < min x1 r.x1) := by
  unfold underlineMatch
  simp only [Bool.and_eq_true, decide_eq_true_iff]
  constructor
  · rintro ⟨⟨hh, hy1, hy2⟩, hx⟩
    refine ⟨hh, ?_, hx⟩
    rw [abs_lt]
    constructor <;> linarith
  · rintro ⟨hh, hy, hx⟩
    have h := abs_lt.mp hy
    exact ⟨⟨hh, by linarith [h.1], by linarith [h.2]⟩, hx⟩

/-- C4: a drawing path counts as a horizontal line iff its rectangle height
is below 1 and its width positive; the block's `is_underline` is true iff
some path on the page is a horizontal line with `y0` strictly within
`font_size * 0.2` of the block's bottom edge `y1` and overlapping the
block's horizontal extent; the first matching path already decides the
result; and with no matching path the result is `false`. -/
theorem C4_underline (x0 x1 y1 font_size : ℚ) (paths : List Rect) :
    (∀ r : Rect, isHorizontalLine r = true ↔ (r.height < 1 ∧ 0 < r.width))
    ∧ (computeUnderline x0 x1 y1 font_size paths = true ↔
        ∃ r ∈ paths, isHorizontalLine r = true
          ∧ |r.y0 - y1| < font_size * (1 / 5) ∧ max x0 r.x0 < min x1 r.x1)
    ∧ (∀ r rs, underlineMatch x0 x1 y1 font_size r = true →
        computeUnderline x0 x1 y1 font_size (r :: rs) = true)
    ∧ computeUnderline x0 x1 y1 font_size [] = false := by
  refine ⟨?_, ?_, ?_, rfl⟩
  · intro r
    unfold isHorizontalLine
    exact decide_eq_true_iff
  · rw [computeUnderline_eq_any, List.any_eq_true]
    constructor
    · rintro ⟨r, hr, hm⟩
      exact ⟨r, hr, (underlineMatch_iff x0 x1 y1 font_size r).mp hm⟩
    · rintro ⟨r, hr, hm⟩
      exact ⟨r, hr, (underlineMatch_iff x0 x1 y1 font_size r).mpr hm⟩
  · intro r rs h
    simp [computeUnderline, h]

/-- Witness for C4: the spec's example, a height-0.5 rectangle at the
baseline of a block with `font_size = 10`, is detected as an underline. -/
theorem C4_underline_witness :
    computeUnderline 0 100 50 10 [⟨10, 50, 90, 101 / 2⟩] = true :=
  (C4_underline 0 100 50 10 [⟨10, 50, 90, 101 / 2⟩]).2.2.1
    ⟨10, 50, 90, 101 / 2⟩ [] (by with_unfolding_all decide)

/-- C5 counterexample: for a page whose (sorted) block list is the single
block with bounding box `(0, 10, 5, 20)`, the emitted `space_above` is the
block's own `y0 = 10`, not `0` as the claim states for a first block. -/
theorem C5_counterexample :
    space_above_at [⟨0, 10, 5, 20⟩] 0 = 10 ∧ (10 : ℚ) ≠ 0 := by
  with_unfolding_all decide

/-- C5 (amended): for every emitted block at index `i` of the page's
y0-sorted raw block list, `space_above` equals the block's `y0` minus the
previous block's `y1` when `i > 0`, and equals the block's own `y0` (the
previous bottom edge being taken as 0) when the block is first on its
page. -/
theorem C5_space_above (blocks : List Rect) (i : Nat) (h : i < blocks.length) :
    (0 < i → space_above_at blocks i
        = (blocks.getD i defaultRect).y0 - (blocks.getD (i - 1) defaultRect).y1)
    ∧ (i = 0 → space_above_at blocks i = (blocks.getD 0 defaultRect).y0) := by
  constructor
  · intro hi
    unfold space_above_at prev_block_y1
    rw [if_pos hi]
  · rintro rfl
    unfold space_above_at prev_block_y1
    simp

/-- Witness for C5 at a concrete one-block page. -/
theorem C5_space_above_witness : space_above_at [⟨0, 7, 5, 20⟩] 0 = 7 := by
  have h := (C5_space_above [⟨0, 7, 5, 20⟩] 0 (by decide)).2 rfl
  rw [h]
  with_unfolding_all decide

/-- C6 counterexample: invoked with 3 positional arguments (`argc = 4`), the
Merged-Block extractor CLI does not exit — its check is `len(sys.argv) < 3`,
so an argument count other than exactly 2 does not always exit with code
1. -/
theorem C6_counterexample :
    (3 : Nat) ≠ 2 ∧ fe_cli_exits (3 + 1) = false := by decide

/-- C6 (amended): with `n` positional arguments (`argc = n + 1`), the
Per-Block extractor CLI prints usage and exits with code 1 exactly when
`n ≠ 2`, while the Merged-Block extractor CLI does so exactly when `n < 2`
(extra arguments beyond two are accepted and ignored). -/
theorem C6_arg_validation (n : Nat) :
    pb_cli_exits (n + 1) = decide (n ≠ 2)
    ∧ fe_cli_exits (n + 1) = decide (n < 2) := by
  constructor <;>
    · simp only [pb_cli_exits, fe_cli_exits, decide_eq_decide]
      omega

/-- C9: with no extracted text blocks, both feature extractors return
normally with no CSV output (`none`) — the Merged-Block extractor at
`feature-extractor.py` lines 145–147, the Per-Block extractor at `main.py`
lines 189–191. -/
theorem C9_empty_document :
    extract_and_process_pdf_output [] = none ∧ process_pdf_output [] = none :=
  ⟨rfl, rfl⟩

/-- C7: both CSV headers match the spec's column lists exactly — 33 columns
for the Merged-Block extractor and 25 (20 assembly-order keys plus the five
appended `norm_*` keys) for the Per-Block extractor — independently of any
document content. -/
theorem C7_csv_headers :
    mergedHeader
      = ["page_number", "is_bold", "is_italic", "is_underline", "is_all_caps",
         "is_centered", "contains_number", "contains_fullstop", "word_count",
         "norm_font_size", "norm_space_above", "norm_space_below",
         "norm_space_left", "norm_space_right", "norm_r", "norm_g", "norm_b",
         "norm_x0", "norm_y0", "norm_x1", "norm_y1",
         "font", "font_size", "color_rgb", "x0", "y0", "x1", "y1",
         "space_above", "space_below", "space_left", "space_right", "text"]
    ∧ mergedHeader.length = 33
    ∧ perBlockHeader
      = ["text", "font", "font_size", "is_bold", "is_italic", "is_underline",
         "is_all_caps", "is_centered", "contains_number", "contains_fullstop",
         "word_count", "x0", "y0", "x1", "y1", "space_above", "space_below",
         "space_left", "space_right", "page_number",
         "norm_font_size", "norm_space_above", "norm_space_below",
         "norm_space_left", "norm_space_right"]
    ∧ perBlockHeader.length = 25 := by
  refine ⟨rfl, rfl, ?_, ?_⟩ <;> decide

/-- Lemma: once the title is set, the classification loop never replaces
it. -/
theorem classify_keep_title (thresh : ℚ) (bs : List RawBlock) (t0 : PyStr) :
    (classify thresh bs (some t0)).1 = some t0 := by
  induction bs with
  | nil => rfl
  | cons b bs ih =>
    simp only [classify]
    have hno : ¬ (b.page = 0 ∧ (some t0 : Option PyStr) = none
        ∧ 4 < (pySplit b.text).length ∧ lastCharIn b.text titlePunct = false) := by
      rintro ⟨-, h, -⟩
      simp at h
    rw [if_neg hno]
    split_ifs <;> simp [ih]

/-- Lemma: a block satisfies the Python title condition with `title = None`
iff it satisfies `titleCond`. -/
theorem titleCond_decode (b : RawBlock) (h : titleCond b = true) :
    b.page = 0 ∧ (none : Option PyStr) = none ∧ 4 < (pySplit b.text).length
      ∧ lastCharIn b.text titlePunct = false := by
  unfold titleCond at h
  rw [decide_eq_true_iff] at h
  exact ⟨h.1, rfl, h.2.1, h.2.2⟩

/-- Lemma: starting from no title, the title the classification loop returns
is the text of the first block satisfying `titleCond`, if any. -/
theorem classify_title_eq_find (thresh : ℚ) (bs : List RawBlock) :
    (classify thresh bs none).1 = (bs.find? titleCond).map RawBlock.text := by
  induction bs with
  | nil => rfl
  | cons b bs ih =>
    simp only [classify]
    split_ifs with hA hB hC
    · have hc : titleCond b = true := by
        obtain ⟨x1, -, x3, x4⟩ := hA
        unfold titleCond
        rw [decide_eq_true_iff]
        exact ⟨x1, x3, x4⟩
      rw [List.find?_cons_of_pos bs hc, Option.map_some']
      exact classify_keep_title thresh bs b.text
    all_goals
      have hcne : ¬ titleCond b = true := by
        intro hcc
        obtain ⟨x1, -, x3, x4⟩ := titleCond_decode b hcc
        exact hA ⟨x1, by trivial, x3, x4⟩
    all_goals rw [List.find?_cons_of_neg bs hcne]
    · exact ih
    · exact ih
    · exact ih

/-- C3: scanning the blocks in document order, the title is the text of the
first page-0 block with more than 4 words not ending in `.?!` (`none`,
reported as `""`, when no block qualifies); a block chosen as title
contributes no heading; a title, once set, is never replaced; and any
returned title comes from a block with more than 4 words, so a page-0 block
with 4 or fewer words is never chosen. -/
theorem C3_title_detection (thresh : ℚ) (blocks : List RawBlock)
    (hne : ∀ b ∈ blocks, b.text ≠ []) :
    ((classify thresh blocks none).1 = (blocks.find? titleCond).map RawBlock.text)
    ∧ (∀ t0, (classify thresh blocks (some t0)).1 = some t0)
    ∧ (∀ b bs, titleCond b = true →
        (classify thresh (b :: bs) none).2 = (classify thresh bs (some b.text)).2)
    ∧ (blocks.find? titleCond = none → (extract_pdf_structure thresh blocks).1 = [])
    ∧ (∀ t, (classify thresh blocks none).1 = some t →
        ∃ b ∈ blocks, titleCond b = true ∧ b.text = t
          ∧ 4 < (pySplit b.text).length) := by
  refine ⟨classify_title_eq_find thresh blocks,
    fun t0 => classify_keep_title thresh blocks t0, ?_, ?_, ?_⟩
  · intro b bs hc
    obtain ⟨h1, -, h3, h4⟩ := titleCond_decode b hc
    simp [classify, h1, h3, h4]
  · intro hfind
    unfold extract_pdf_structure
    simp [classify_title_eq_find thresh blocks, hfind]
  · intro t ht
    rw [classify_title_eq_find] at ht
    obtain ⟨b, hfind, htext⟩ := Option.map_eq_some'.mp ht
    have hpred := List.find?_some hfind
    have hwords : 4 < (pySplit b.text).length := by
      have h := hpred
      unfold titleCond at h
      rw [decide_eq_true_iff] at h
      exact h.2.1
    exact ⟨b, List.mem_of_find?_eq_some hfind, hpred, htext, hwords⟩

/-- Witness for C3 at a one-block document whose page-0 block has 5 words
and no terminal punctuation. -/
theorem C3_title_detection_witness :
    (classify 0 [⟨0, "A small beautiful title here".toList, 0, 0, 0⟩] none).1
      = (([⟨0, "A small beautiful title here".toList, 0, 0, 0⟩] :
            List RawBlock).find? titleCond).map RawBlock.text :=
  (C3_title_detection 0 [⟨0, "A small beautiful title here".toList, 0, 0, 0⟩]
    (by decide)).1

/-- Lemma: every provisional outline node the classification loop emits has
level 1 or 2. -/
theorem classify_levels (thresh : ℚ) (bs : List RawBlock) :
    ∀ title n, n ∈ (classify thresh bs title).2 → n.level = 1 ∨ n.level = 2 := by
  induction bs with
  | nil =>
    intro title n h
    simp [classify] at h
  | cons b bs ih =>
    intro title n h
    simp only [classify] at h
    split_ifs at h
    · exact ih _ _ h
    · exact ih _ _ h
    · rw [List.mem_cons] at h
      rcases h with rfl | h'
      · show provLevel thresh b = 1 ∨ provLevel thresh b = 2
        unfold provLevel
        split_ifs <;> simp
      · exact ih _ _ h'
    · exact ih _ _ h

/-- Lemma: `adjustNodes` maps levels drawn from 1 and 2 back into 1 and 2. -/
theorem adjustNodes_levels (ns : List OutlineNode) :
    ∀ last n, (∀ m ∈ ns, m.level = 1 ∨ m.level = 2) →
      n ∈ adjustNodes last ns → n.level = 1 ∨ n.level = 2 := by
  induction ns with
  | nil =>
    intro last n _ h
    simp [adjustNodes] at h
  | cons m ms ih =>
    intro last n hall h
    simp only [adjustNodes] at h
    rcases List.mem_cons.mp h with rfl | h'
    · have hm := hall m (List.mem_cons_self m ms)
      show adjustStep last m.level = 1 ∨ adjustStep last m.level = 2
      unfold adjustStep
      rcases hm with h1 | h1 <;> rw [h1] <;> split_ifs <;> omega
    · exact ih _ _ (fun x hx => hall x (List.mem_cons_of_mem _ hx)) h'

/-- C10: every node of the outline returned by `extract_pdf_structure` has
level exactly 1 ("H1") or 2 ("H2"), for every document and threshold: the
provisional assignment only produces these two labels, and
`adjust_hierarchy` maps sequences over them back into them. -/
theorem C10_outline_levels (thresh : ℚ) (blocks : List RawBlock)
    (n : OutlineNode) (hn : n ∈ (extract_pdf_structure thresh blocks).2) :
    n.level = 1 ∨ n.level = 2 := by
  have hall : ∀ m ∈ (classify thresh blocks none).2, m.level = 1 ∨ m.level = 2 :=
    fun m hm => classify_levels thresh blocks none m hm
  have hn' : n ∈ adjustNodes 0 (classify thresh blocks none).2 := by
    simpa [extract_pdf_structure, adjust_hierarchy] using hn
  exact adjustNodes_levels _ 0 n hall hn'

/-- Witness for C10 at a one-block document whose bold block `"Conclusion"`
becomes an H1 heading. -/
theorem C10_outline_levels_witness :
    (⟨1, conclusionText, 0⟩ : OutlineNode).level = 1
      ∨ (⟨1, conclusionText, 0⟩ : OutlineNode).level = 2 :=
  C10_outline_levels 0 [⟨0, conclusionText, 0, 1, 0⟩] ⟨1, conclusionText, 0⟩
    (by with_unfolding_all decide)

end Round1A
